import Mathlib

/-!
# Verification of the CortexAI plugin handler contracts

A shallow embedding of the `cortexai-plugins` repository: each tool handler
(command execution, filesystem, web request / browse / search, JS analysis /
endpoint probing, base64 / hashing) is translated into a total Lean function.
External effects (the OS, the network, the regex engine, zlib, the headless
browser) are supplied as explicit environment values or oracle functions; the
handler's own control flow, result-object construction and error encoding are
translated directly from the JavaScript source.  A handler's returned
`JSON.stringify`-ed string is represented by the `Json` value it stringifies.
-/

namespace CortexPlugins

/-- JSON values, the result shape every handler serializes with
`JSON.stringify`.  Numbers are modelled as integers (every number the
plugins emit is an integral status code, size, count or exit code). -/
inductive Json where
  | null : Json
  | bool (b : Bool) : Json
  | num (n : Int) : Json
  | str (s : String) : Json
  | arr (elems : List Json) : Json
  | obj (fields : List (String × Json)) : Json

/-- First-match key lookup in a JSON object's field list (JS object keys are
unique, so this is plain field access). -/
def lookupField : List (String × Json) → String → Option Json
  | [], _ => none
  | (k, v) :: rest, key => if k = key then some v else lookupField rest key

/-- Field access on a JSON value. -/
def Json.getField : Json → String → Option Json
  | .obj fields, key => lookupField fields key
  | _, _ => none

/-- The key list of a JSON object (the field names `JSON.stringify` emits,
in insertion order). -/
def Json.keys : Json → List String
  | .obj fields => fields.map Prod.fst
  | _ => []

/-- A handler result is well-formed when it is a JSON object whose
`success` field is a boolean. -/
def hasBoolSuccess (j : Json) : Bool :=
  match j.getField "success" with
  | some (.bool _) => true
  | _ => false

/-- String-valued header / pair-list lookup (e.g. Node's `res.headers`). -/
def lookupStr : List (String × String) → String → Option String
  | [], _ => none
  | (k, v) :: rest, key => if k = key then some v else lookupStr rest key

/-- JavaScript `Array.prototype.slice(0, e)`: a possibly negative end index
counts from the end of the array. -/
def jsSliceEnd {α : Type} (l : List α) (e : Int) : List α :=
  if e < 0 then l.take (((l.length : Int) + e).toNat) else l.take e.toNat

/-- JavaScript substring containment (`String.prototype.includes`). -/
def strContains (s sub : String) : Bool := decide (sub.toList <:+: s.toList)

/-!
## Base64 (example plugin, `base64_encode` / `base64_decode`)

The handlers call Node's `Buffer.from(text, 'utf-8').toString('base64')` and
`Buffer.from(encoded_text, 'base64').toString('utf-8')`.  A JS text string is
represented here by its UTF-8 byte sequence (`List Nat`, each byte `< 256`),
which is exactly the byte content of the `Buffer` the handlers build; the
base64 alphabet, 3-byte-to-4-char grouping and `=` padding below follow
RFC 4648 as implemented by `Buffer`.  On the decode side `Buffer` skips
padding and non-alphabet characters and recombines the remaining sextets,
which `b64DecodeBytes` mirrors.
-/

/-- The RFC 4648 base64 alphabet used by Node's `Buffer`. -/
def b64Alphabet : List Char :=
  ['A', 'B', 'C', 'D', 'E', 'F', 'G', 'H', 'I', 'J', 'K', 'L', 'M',
   'N', 'O', 'P', 'Q', 'R', 'S', 'T', 'U', 'V', 'W', 'X', 'Y', 'Z',
   'a', 'b', 'c', 'd', 'e', 'f', 'g', 'h', 'i', 'j', 'k', 'l', 'm',
   'n', 'o', 'p', 'q', 'r', 's', 't', 'u', 'v', 'w', 'x', 'y', 'z',
   '0', '1', '2', '3', '4', '5', '6', '7', '8', '9', '+', '/']

/-- Character for a sextet value. -/
def b64Char (n : Nat) : Char := b64Alphabet.getD n 'A'

/-- Sextet value of an alphabet character (`none` for padding or any
non-alphabet character, which Node's decoder skips). -/
def b64Index (c : Char) : Option Nat :=
  (List.range 64).find? (fun i => b64Char i == c)

/-- Encode a byte sequence into base64 characters, three bytes at a time,
with `=` padding for a 1- or 2-byte tail. -/
def encodeChunks : List Nat → List Char
  | [] => []
  | [b1] => [b64Char (b1 / 4), b64Char (b1 % 4 * 16), '=', '=']
  | [b1, b2] => [b64Char (b1 / 4), b64Char (b1 % 4 * 16 + b2 / 16), b64Char (b2 % 16 * 4), '=']
  | b1 :: b2 :: b3 :: rest =>
      b64Char (b1 / 4) :: b64Char (b1 % 4 * 16 + b2 / 16) ::
      b64Char (b2 % 16 * 4 + b3 / 64) :: b64Char (b3 % 64) :: encodeChunks rest

/-- Recombine decoded sextets into bytes, four sextets at a time; a 2- or
3-sextet tail yields 1 or 2 bytes, a shorter tail none. -/
def groupDecode : List Nat → List Nat
  | i1 :: i2 :: i3 :: i4 :: rest =>
      (i1 * 4 + i2 / 16) :: (i2 % 16 * 16 + i3 / 4) :: (i3 % 4 * 64 + i4) :: groupDecode rest
  | [i1, i2] => [i1 * 4 + i2 / 16]
  | [i1, i2, i3] => [i1 * 4 + i2 / 16, i2 % 16 * 16 + i3 / 4]
  | _ => []

/-- Node `Buffer.from(·, 'base64')`: skip padding / non-alphabet characters,
then recombine sextets into bytes. -/
def b64DecodeBytes (cs : List Char) : List Nat :=
  groupDecode (cs.filterMap b64Index)

/-- A byte sequence shown as a JS string (one character per byte; injective
for bytes, so equality of these strings is equality of the texts). -/
def bytesToStr (bs : List Nat) : String := String.mk (bs.map Char.ofNat)

/-- `base64EncodeHandler` from the example plugin: always succeeds, returning
`{success, original, encoded, length}`. -/
def base64EncodeHandler (text : List Nat) : Json :=
  let encoded := encodeChunks text
  Json.obj [("success", .bool true), ("original", .str (bytesToStr text)),
            ("encoded", .str (String.mk encoded)), ("length", .num encoded.length)]

/-- `base64DecodeHandler` from the example plugin: `Buffer`'s base64 decoding
never throws, so the handler always returns
`{success, encoded, decoded, length}`. -/
def base64DecodeHandler (encoded_text : List Char) : Json :=
  let decoded := b64DecodeBytes encoded_text
  Json.obj [("success", .bool true), ("encoded", .str (String.mk encoded_text)),
            ("decoded", .str (bytesToStr decoded)), ("length", .num decoded.length)]

theorem b64Index_b64Char_fin : ∀ i : Fin 64, b64Index (b64Char i.val) = some i.val := by decide

theorem b64Index_b64Char (i : Nat) (h : i < 64) : b64Index (b64Char i) = some i :=
  b64Index_b64Char_fin ⟨i, h⟩

theorem b64Index_pad : b64Index '=' = none := by decide

/-- Decoding inverts encoding on byte sequences. -/
theorem groupDecode_encode : ∀ bs : List Nat, (∀ b ∈ bs, b < 256) →
    b64DecodeBytes (encodeChunks bs) = bs
  | [], _ => rfl
  | [b1], h => by
    have hb1 : b1 < 256 := h b1 (by simp)
    simp only [encodeChunks, b64DecodeBytes, List.filterMap_cons,
      b64Index_b64Char (b1 / 4) (by omega), b64Index_b64Char (b1 % 4 * 16) (by omega),
      b64Index_pad, List.filterMap_nil, groupDecode, List.cons.injEq]
    exact ⟨by omega, trivial⟩
  | [b1, b2], h => by
    have hb1 : b1 < 256 := h b1 (by simp)
    have hb2 : b2 < 256 := h b2 (by simp)
    simp only [encodeChunks, b64DecodeBytes, List.filterMap_cons,
      b64Index_b64Char (b1 / 4) (by omega),
      b64Index_b64Char (b1 % 4 * 16 + b2 / 16) (by omega),
      b64Index_b64Char (b2 % 16 * 4) (by omega),
      b64Index_pad, List.filterMap_nil, groupDecode, List.cons.injEq]
    exact ⟨by omega, by omega, trivial⟩
  | b1 :: b2 :: b3 :: rest, h => by
    have hb1 : b1 < 256 := h b1 (by simp)
    have hb2 : b2 < 256 := h b2 (by simp)
    have hb3 : b3 < 256 := h b3 (by simp)
    have ih := groupDecode_encode rest (fun b hb => h b (by simp [hb]))
    simp only [b64DecodeBytes] at ih
    simp only [encodeChunks, b64DecodeBytes, List.filterMap_cons,
      b64Index_b64Char (b1 / 4) (by omega),
      b64Index_b64Char (b1 % 4 * 16 + b2 / 16) (by omega),
      b64Index_b64Char (b2 % 16 * 4 + b3 / 64) (by omega),
      b64Index_b64Char (b3 % 64) (by omega), groupDecode, List.cons.injEq]
    exact ⟨by omega, by omega, by omega, ih⟩

/-- C3: for every text (given by its UTF-8 bytes, each `< 256`), encoding with
`base64_encode` and decoding the resulting `encoded` string with
`base64_decode` yields the original text back, with both handlers reporting
`success:true`. -/
theorem base64_roundtrip (text : List Nat) (h : ∀ b ∈ text, b < 256) :
    (base64EncodeHandler text).getField "success" = some (.bool true) ∧
    (base64EncodeHandler text).getField "encoded" = some (.str (String.mk (encodeChunks text))) ∧
    (base64DecodeHandler (encodeChunks text)).getField "success" = some (.bool true) ∧
    (base64DecodeHandler (encodeChunks text)).getField "decoded" = some (.str (bytesToStr text)) := by
  refine ⟨rfl, rfl, rfl, ?_⟩
  have hdec : b64DecodeBytes (encodeChunks text) = text := groupDecode_encode text h
  calc (base64DecodeHandler (encodeChunks text)).getField "decoded"
      = some (.str (bytesToStr (b64DecodeBytes (encodeChunks text)))) := rfl
    _ = some (.str (bytesToStr text)) := by rw [hdec]

/-- Witness for C3 at the two-byte text `"hi"` (bytes 104, 105). -/
theorem base64_roundtrip_witness :
    (∀ b ∈ [104, 105], b < 256) ∧
    ((base64EncodeHandler [104, 105]).getField "success" = some (.bool true) ∧
     (base64EncodeHandler [104, 105]).getField "encoded" = some (.str (String.mk (encodeChunks [104, 105]))) ∧
     (base64DecodeHandler (encodeChunks [104, 105])).getField "success" = some (.bool true) ∧
     (base64DecodeHandler (encodeChunks [104, 105])).getField "decoded" = some (.str (bytesToStr [104, 105]))) :=
  ⟨by decide, base64_roundtrip [104, 105] (by decide)⟩

/-!
## Hashing (example plugin, `hash_text`)

`crypto.createHash(algorithm)` and the hex digest are external; the
environment supplies the digest computation, whose failure (an unsupported
algorithm name) is the one exception the handler's `catch` converts to
`{success:false, error}`.
-/

/-- The digest oracle: algorithm name and text to hex digest, or the
`createHash` exception message. -/
structure HashEnv where
  digest : String → String → Except String String

/-- `hashTextHandler` from the example plugin. -/
def hashTextHandler (env : HashEnv) (text : String) (algorithm : Option String) : Json :=
  let alg := algorithm.getD "sha256"
  match env.digest alg text with
  | .ok d => .obj [("success", .bool true), ("original", .str text), ("algorithm", .str alg),
                   ("hash", .str d), ("length", .num d.length)]
  | .error m => .obj [("success", .bool false), ("error", .str m)]

/-!
## Web request (web plugin, `web_request`)

The Node request machinery is an environment: the single observable outcome
of `httpModule.request` (a response, an `error` event, a `timeout` event, or
`new URL(url)` throwing inside the executor's `try`), plus oracles for
`zlib.gunzipSync` / `zlib.inflateSync` and for `new URL(location, url).href`
redirect resolution.  The handler's header merging and request writing have
no observable effect on the returned JSON and are absorbed into the event.
-/

/-- Arguments of `web_request`, with the handler's destructuring defaults. -/
structure WebRequestArgs where
  url : String
  method : String := "GET"
  headers : List (String × String) := []
  data : Option String := none
  follow_redirects : Bool := true

/-- The observable outcome of the single `httpModule.request` call. -/
inductive HttpEvent where
  | response (statusCode : Int) (statusMessage : String)
      (headers : List (String × String)) (rawBody : String)
  | reqError (msg : String)
  | timeout
  | urlThrow (msg : String)

/-- Environment of one `web_request` invocation. -/
structure WebEnv where
  event : HttpEvent
  gunzip : String → Except String String
  inflate : String → Except String String
  resolveURL : String → String → String

/-- Structured form of the handler's resolved result, before
`JSON.stringify`. -/
inductive WrOutcome where
  | ok (statusCode : Int) (statusMessage : String) (headers : List (String × String))
      (body : String) (redirected : Bool) (redirectUrl : Option String)
  | fail (msg : String)

/-- Body decompression: gzip/deflate per `content-encoding`, falling back to
the raw bytes when decompression throws. -/
def decompressBody (env : WebEnv) (headers : List (String × String)) (raw : String) : String :=
  match lookupStr headers "content-encoding" with
  | some enc =>
    if enc = "gzip" then
      match env.gunzip raw with
      | .ok d => d
      | .error _ => raw
    else if enc = "deflate" then
      match env.inflate raw with
      | .ok d => d
      | .error _ => raw
    else raw
  | none => raw

/-- The five redirect status codes the handler checks. -/
def redirectCodes : List Int := [301, 302, 303, 307, 308]

/-- The `redirected` / `redirect_url` metadata: set only when
`follow_redirects` is truthy, the status is a redirect code and a truthy
`location` header is present. -/
def redirectInfo (env : WebEnv) (args : WebRequestArgs) (sc : Int)
    (hs : List (String × String)) : Bool × Option String :=
  match lookupStr hs "location" with
  | some loc =>
    if args.follow_redirects ∧ sc ∈ redirectCodes ∧ loc ≠ "" then
      (true, some (env.resolveURL loc args.url))
    else (false, none)
  | none => (false, none)

/-- `webRequestHandler`, structured: the request is issued exactly once; a
redirect response is returned as-is with metadata, never re-issued. -/
def webRequestResult (env : WebEnv) (args : WebRequestArgs) : WrOutcome :=
  match env.event with
  | .urlThrow m => .fail m
  | .reqError m => .fail m
  | .timeout => .fail "Request timeout (30s)"
  | .response sc sm hs raw =>
    let ri := redirectInfo env args sc hs
    .ok sc sm hs (decompressBody env hs raw) ri.1 ri.2

/-- Headers as a JSON object. -/
def headersJson (hs : List (String × String)) : Json :=
  .obj (hs.map (fun p => (p.1, Json.str p.2)))

/-- The JSON object `webRequestHandler` stringifies (`redirect_url` is only
present when set, like any `undefined`-valued JS property). -/
def renderWr (url method : String) : WrOutcome → Json
  | .ok sc sm hs body rd ru =>
    .obj ([("success", .bool true), ("status_code", .num sc), ("status_message", .str sm),
           ("headers", headersJson hs), ("body", .str body), ("url", .str url),
           ("method", .str method), ("redirected", .bool rd)] ++
          (match ru with | some u => [("redirect_url", .str u)] | none => []))
  | .fail m =>
    .obj [("success", .bool false), ("error", .str m), ("url", .str url), ("method", .str method)]

/-- `webRequestHandler` from the web plugin. -/
def webRequestHandler (env : WebEnv) (args : WebRequestArgs) : Json :=
  renderWr args.url args.method (webRequestResult env args)

/-- A `web_request` environment whose request times out. -/
def timeoutEnv : WebEnv :=
  { event := .timeout, gunzip := fun _ => .error "not gzip",
    inflate := fun _ => .error "not deflate", resolveURL := fun l _ => l }

/-- C9 counterexample: on timeout the error string the handler returns is
`"Request timeout (30s)"`, not `"Request timeout"` as claimed. -/
theorem web_request_timeout_string_cex :
    (webRequestHandler timeoutEnv { url := "http://example.com/" }).getField "error"
      ≠ some (.str "Request timeout") := by
  intro hcontra
  have h0 : (webRequestHandler timeoutEnv { url := "http://example.com/" }).getField "error"
      = some (.str "Request timeout (30s)") := rfl
  rw [h0] at hcontra
  injection hcontra with h1
  injection h1 with h2
  exact absurd h2 (by decide)

/-- C9 amended: a `web_request` whose 30-second timeout fires destroys the
request and returns `{success:false, error:"Request timeout (30s)", url,
method}`. -/
theorem web_request_timeout_result (g i : String → Except String String)
    (r : String → String → String) (args : WebRequestArgs) :
    webRequestHandler { event := .timeout, gunzip := g, inflate := i, resolveURL := r } args =
      .obj [("success", .bool false), ("error", .str "Request timeout (30s)"),
            ("url", .str args.url), ("method", .str args.method)] := rfl

/-- A 301 response carrying a `location` header. -/
def redirectCexEnv : WebEnv :=
  { event := .response 301 "Moved Permanently" [("location", "http://example.com/next")] "",
    gunzip := fun _ => .error "not gzip", inflate := fun _ => .error "not deflate",
    resolveURL := fun l _ => l }

/-- C5 counterexample: an invocation with `follow_redirects:false` whose
response is a 301 with a `Location` header gets `redirected:false` and no
`redirect_url`, contradicting the claim that every redirect-status response
carries `{redirected:true, redirect_url}`. -/
theorem web_request_redirect_not_surfaced_cex :
    (webRequestHandler redirectCexEnv
        { url := "http://example.com/", follow_redirects := false }).getField "redirected"
      = some (.bool false) ∧
    (webRequestHandler redirectCexEnv
        { url := "http://example.com/", follow_redirects := false }).getField "redirect_url"
      = none := ⟨rfl, rfl⟩

/-- C5 amended: the handler never re-issues the request (the redirect
response's own status and body are returned); when `follow_redirects` is
truthy (the default) and the response carries a non-empty `Location` header,
the result carries `{redirected:true, redirect_url}`. -/
theorem web_request_redirect_metadata (env : WebEnv) (args : WebRequestArgs)
    (sc : Int) (sm : String) (hs : List (String × String)) (raw loc : String)
    (hev : env.event = .response sc sm hs raw) (hsc : sc ∈ redirectCodes)
    (hfr : args.follow_redirects = true) (hloc : lookupStr hs "location" = some loc)
    (hne : loc ≠ "") :
    (webRequestHandler env args).getField "redirected" = some (.bool true) ∧
    (webRequestHandler env args).getField "redirect_url"
      = some (.str (env.resolveURL loc args.url)) ∧
    (webRequestHandler env args).getField "status_code" = some (.num sc) ∧
    (webRequestHandler env args).getField "body" = some (.str (decompressBody env hs raw)) := by
  have hri : redirectInfo env args sc hs = (true, some (env.resolveURL loc args.url)) := by
    simp [redirectInfo, hloc, hfr, hsc, hne]
  simp [webRequestHandler, webRequestResult, hev, hri, renderWr, Json.getField, lookupField]

/-- A 302 response with a relative `location`, for the C5 witness. -/
def redirectOkEnv : WebEnv :=
  { event := .response 302 "Found" [("location", "/next")] "hello",
    gunzip := fun _ => .error "not gzip", inflate := fun _ => .error "not deflate",
    resolveURL := fun l b => b ++ l }

/-- Witness for the amended C5 at a concrete 302 response. -/
theorem web_request_redirect_metadata_witness :
    (webRequestHandler redirectOkEnv { url := "http://e.com" }).getField "redirected"
      = some (.bool true) ∧
    (webRequestHandler redirectOkEnv { url := "http://e.com" }).getField "redirect_url"
      = some (.str (redirectOkEnv.resolveURL "/next" "http://e.com")) ∧
    (webRequestHandler redirectOkEnv { url := "http://e.com" }).getField "status_code"
      = some (.num 302) ∧
    (webRequestHandler redirectOkEnv { url := "http://e.com" }).getField "body"
      = some (.str (decompressBody redirectOkEnv [("location", "/next")] "hello")) :=
  web_request_redirect_metadata redirectOkEnv { url := "http://e.com" } 302 "Found"
    [("location", "/next")] "hello" "/next" rfl (by decide) rfl rfl (by decide)

/-!
## Browse website (web plugin, `browse_website`)

`browseWithPuppeteer` is external browser automation: its outcome is either
the page data it extracted or the exception it threw (launch failure,
navigation timeout, ...), supplied as `Except String PuppeteerData`.  The
fallback `browseStatic` re-uses the `web_request` embedding for its fetch and
oracle functions for its regex extractions over the raw HTML.
-/

/-- Arguments of `browse_website`, with the handler's destructuring
defaults. -/
structure BrowseArgs where
  url : String
  extract_links : Bool := false
  extract_forms : Bool := false
  extract_scripts : Bool := false
  user_agent : Option String := none

/-- What a successful puppeteer session observed: response status and
headers, rendered HTML, and the page evaluations (title, first 2000 chars of
visible text, link/form/script/meta extractions). -/
structure PuppeteerData where
  status : Int
  headers : List (String × String)
  html : String
  title : String
  textContent : String
  links : List Json
  forms : List Json
  scripts : List Json
  metaTags : List Json

/-- The fixed allow-list of security-relevant response headers. -/
def securityHeaderNames : List String :=
  ["strict-transport-security", "content-security-policy", "x-frame-options",
   "x-content-type-options", "x-xss-protection", "referrer-policy"]

/-- `result.security_headers`: each allow-listed header with a truthy
value. -/
def securityHeadersOf (hs : List (String × String)) : List (String × Json) :=
  securityHeaderNames.filterMap fun n =>
    match lookupStr hs n with
    | some v => if v = "" then none else some (n, Json.str v)
    | none => none

/-- The result object of the primary (puppeteer) path. -/
def renderPuppeteer (d : PuppeteerData) (args : BrowseArgs) : Json :=
  .obj [("success", .bool true), ("url", .str args.url), ("status_code", .num d.status),
        ("headers", headersJson d.headers), ("content_length", .num d.html.length),
        ("title", .str d.title), ("text_content", .str d.textContent),
        ("links", .arr (if args.extract_links then d.links else [])),
        ("forms", .arr (if args.extract_forms then d.forms else [])),
        ("scripts", .arr (if args.extract_scripts then d.scripts else [])),
        ("meta_tags", .arr d.metaTags),
        ("security_headers", .obj (securityHeadersOf d.headers)),
        ("rendered_with", .str "puppeteer")]

/-- The regex engine behind the static path's extraction helpers
(`extractLinksFromHTML`, `extractFormsFromHTML`, `extractScriptsFromHTML`,
`extractMetaTagsFromHTML`, the `<title>` match and the tag-stripping
`text_content` pipeline), as oracle functions of the HTML (and base URL). -/
structure RegexOracle where
  titleOf : String → Option String
  textOf : String → String
  links : String → String → List Json
  forms : String → String → List Json
  scripts : String → String → List Json
  metaTags : String → List Json

/-- `browseStatic`: fetch via `webRequestHandler`, then regex extraction; the
result object mirrors the puppeteer result's fields with
`rendered_with:"static"`. -/
def browseStatic (wenv : WebEnv) (ro : RegexOracle) (args : BrowseArgs) : Json :=
  let reqArgs : WebRequestArgs :=
    { url := args.url, method := "GET",
      headers := match args.user_agent with | some ua => [("User-Agent", ua)] | none => [] }
  match webRequestResult wenv reqArgs with
  | .fail m => .obj [("success", .bool false), ("error", .str m), ("url", .str args.url)]
  | .ok sc _ hs body _ _ =>
    .obj [("success", .bool true), ("url", .str args.url), ("status_code", .num sc),
          ("headers", headersJson hs), ("content_length", .num body.length),
          ("title", .str ((ro.titleOf body).getD "")),
          ("text_content", .str (ro.textOf body)),
          ("links", .arr (if args.extract_links then ro.links body args.url else [])),
          ("forms", .arr (if args.extract_forms then ro.forms body args.url else [])),
          ("scripts", .arr (if args.extract_scripts then ro.scripts body args.url else [])),
          ("meta_tags", .arr (ro.metaTags body)),
          ("security_headers", .obj (securityHeadersOf hs)),
          ("rendered_with", .str "static")]

/-- `browseWebsiteHandler`: try the puppeteer path; on any exception fall
back to static parsing, without inspecting the error. -/
def browseWebsiteHandler (pup : Except String PuppeteerData) (wenv : WebEnv)
    (ro : RegexOracle) (args : BrowseArgs) : Json :=
  match pup with
  | .ok d => renderPuppeteer d args
  | .error _ => browseStatic wenv ro args

/-- C4: any exception in the primary headless-browser path (quantified over
every error message, uninspected) triggers the static fallback; when the
static fetch succeeds the result has `success:true` and
`rendered_with:"static"`, and its field names coincide with the primary
path's field names. -/
theorem browse_fallback (msg : String) (wenv : WebEnv) (ro : RegexOracle) (args : BrowseArgs)
    (sc : Int) (sm : String) (hs : List (String × String)) (raw : String)
    (hev : wenv.event = .response sc sm hs raw) :
    (∀ (m : String) (w : WebEnv) (r : RegexOracle) (a : BrowseArgs),
      browseWebsiteHandler (.error m) w r a = browseStatic w r a) ∧
    (browseWebsiteHandler (.error msg) wenv ro args).getField "success" = some (.bool true) ∧
    (browseWebsiteHandler (.error msg) wenv ro args).getField "rendered_with"
      = some (.str "static") ∧
    ∀ d : PuppeteerData,
      (renderPuppeteer d args).keys = (browseWebsiteHandler (.error msg) wenv ro args).keys := by
  refine ⟨fun _ _ _ _ => rfl, ?_, ?_, ?_⟩ <;>
    simp [browseWebsiteHandler, browseStatic, webRequestResult, hev, renderPuppeteer,
      Json.getField, Json.keys, lookupField]

/-- A static-path environment whose fetch yields a 200 response. -/
def staticOkEnv : WebEnv :=
  { event := .response 200 "OK" [("x-frame-options", "DENY")] "<html><body>hi</body></html>",
    gunzip := fun _ => .error "not gzip", inflate := fun _ => .error "not deflate",
    resolveURL := fun l _ => l }

/-- A trivial concrete regex oracle for witnesses. -/
def trivialRegexOracle : RegexOracle :=
  { titleOf := fun _ => none, textOf := fun _ => "", links := fun _ _ => [],
    forms := fun _ _ => [], scripts := fun _ _ => [], metaTags := fun _ => [] }

/-- Witness for C4: puppeteer launch fails, the static fetch returns 200. -/
theorem browse_fallback_witness :
    (∀ (m : String) (w : WebEnv) (r : RegexOracle) (a : BrowseArgs),
      browseWebsiteHandler (.error m) w r a = browseStatic w r a) ∧
    (browseWebsiteHandler (.error "Failed to launch the browser process") staticOkEnv
        trivialRegexOracle { url := "http://example.com/" }).getField "success"
      = some (.bool true) ∧
    (browseWebsiteHandler (.error "Failed to launch the browser process") staticOkEnv
        trivialRegexOracle { url := "http://example.com/" }).getField "rendered_with"
      = some (.str "static") ∧
    ∀ d : PuppeteerData,
      (renderPuppeteer d { url := "http://example.com/" }).keys
        = (browseWebsiteHandler (.error "Failed to launch the browser process") staticOkEnv
            trivialRegexOracle { url := "http://example.com/" }).keys :=
  browse_fallback "Failed to launch the browser process" staticOkEnv trivialRegexOracle
    { url := "http://example.com/" } 200 "OK" [("x-frame-options", "DENY")]
    "<html><body>hi</body></html>" rfl

/-!
## Command execution (command plugin, `execute_command`)

`promisify(exec)` resolves with `{stdout, stderr}` exactly when the command
exits 0, and rejects otherwise with an error carrying the message, any
partial `stdout` / `stderr`, and `code` (the non-zero exit code; absent for
spawn-level failures).  That outcome is the environment.  JS
`String.prototype.trim` is modelled by `String.trim`.
-/

/-- A minimal tool-descriptor shape: name, parameter property names with
their declared types, and the required subset. -/
structure ToolDef where
  name : String
  properties : List (String × String)
  required : List String

/-- The `execute_command` descriptor. -/
def executeCommandDefinition : ToolDef :=
  { name := "execute_command",
    properties := [("command", "string"), ("working_directory", "string")],
    required := ["command"] }

/-- Arguments of `execute_command`. -/
structure ExecArgs where
  command : String
  working_directory : Option String := none

/-- Outcome of `execAsync(command, {cwd, maxBuffer: 10MB})`. -/
inductive ExecOutcome where
  | ok (stdout stderr : String)
  | fail (msg : String) (stdout stderr : Option String) (code : Option Int)

/-- `executeCommandHandler` from the command plugin (`procCwd` is
`process.cwd()`, the `working_directory` default). -/
def executeCommandHandler (procCwd : String) (outcome : ExecOutcome) (args : ExecArgs) : Json :=
  let wd := args.working_directory.getD procCwd
  match outcome with
  | .ok out err =>
    .obj [("success", .bool true), ("stdout", .str out.trim), ("stderr", .str err.trim),
          ("working_directory", .str wd)]
  | .fail m so se code =>
    .obj ([("success", .bool false), ("error", .str m),
           ("stdout", .str ((so.map String.trim).getD "")),
           ("stderr", .str ((se.map String.trim).getD ""))] ++
          (match code with | some c => [("exit_code", .num c)] | none => []))

/-- C2: `execute_command` accepts `{command (required), working_directory?}`;
exit code 0 yields `{success:true, stdout, stderr, working_directory}` with
trimmed output and no `exit_code` key; a non-zero exit yields
`{success:false, error, stdout, stderr, exit_code}` with the trimmed partial
output; in particular `execute_command({command:"exit 3"})`, whose `exec`
rejects with `code` 3, yields `{success:false, exit_code:3}`. -/
theorem execute_command_contract :
    (executeCommandDefinition.name = "execute_command" ∧
     executeCommandDefinition.required = ["command"] ∧
     executeCommandDefinition.properties.map Prod.fst = ["command", "working_directory"]) ∧
    (∀ (procCwd out err : String) (a : ExecArgs),
      (executeCommandHandler procCwd (.ok out err) a).keys
          = ["success", "stdout", "stderr", "working_directory"] ∧
      (executeCommandHandler procCwd (.ok out err) a).getField "success" = some (.bool true) ∧
      (executeCommandHandler procCwd (.ok out err) a).getField "stdout" = some (.str out.trim) ∧
      (executeCommandHandler procCwd (.ok out err) a).getField "stderr" = some (.str err.trim) ∧
      (executeCommandHandler procCwd (.ok out err) a).getField "working_directory"
          = some (.str (a.working_directory.getD procCwd))) ∧
    (∀ (procCwd m : String) (so se : Option String) (c : Int) (a : ExecArgs),
      (executeCommandHandler procCwd (.fail m so se (some c)) a).keys
          = ["success", "error", "stdout", "stderr", "exit_code"] ∧
      (executeCommandHandler procCwd (.fail m so se (some c)) a).getField "success"
          = some (.bool false) ∧
      (executeCommandHandler procCwd (.fail m so se (some c)) a).getField "error"
          = some (.str m) ∧
      (executeCommandHandler procCwd (.fail m so se (some c)) a).getField "stdout"
          = some (.str ((so.map String.trim).getD "")) ∧
      (executeCommandHandler procCwd (.fail m so se (some c)) a).getField "stderr"
          = some (.str ((se.map String.trim).getD "")) ∧
      (executeCommandHandler procCwd (.fail m so se (some c)) a).getField "exit_code"
          = some (.num c)) ∧
    (∀ (procCwd m : String) (so se : Option String),
      (executeCommandHandler procCwd (.fail m so se (some 3)) { command := "exit 3" }).getField
          "success" = some (.bool false) ∧
      (executeCommandHandler procCwd (.fail m so se (some 3)) { command := "exit 3" }).getField
          "exit_code" = some (.num 3)) := by
  refine ⟨⟨rfl, rfl, rfl⟩, fun procCwd out err a => ?_, fun procCwd m so se c a => ?_,
    fun procCwd m so se => ?_⟩ <;>
    simp [executeCommandHandler, Json.getField, Json.keys, lookupField]

/-!
## Filesystem (filesystem plugin)

`fs/promises` and `path.resolve` are the environment: each handler receives
the outcomes of exactly the calls it awaits, in order; the first rejection
is what its `catch` sees.
-/

/-- Environment of one `read_file` invocation. -/
structure FileEnv where
  resolve : String → String
  readFile : Except String String
  statFile : Except String (Int × String)

/-- `readFileHandler` from the filesystem plugin. -/
def readFileHandler (env : FileEnv) (file_path : String) : Json :=
  match env.readFile with
  | .error m => .obj [("success", .bool false), ("error", .str m), ("path", .str file_path)]
  | .ok content =>
    match env.statFile with
    | .error m => .obj [("success", .bool false), ("error", .str m), ("path", .str file_path)]
    | .ok (sz, mt) =>
      .obj [("success", .bool true), ("content", .str content),
            ("path", .str (env.resolve file_path)), ("size", .num sz), ("modified", .str mt)]

/-- Environment of one `write_file` invocation. -/
structure WriteEnv where
  resolve : String → String
  mkdir : Except String Unit
  write : Except String Unit
  statFile : Except String (Int × String)

/-- `writeFileHandler` from the filesystem plugin. -/
def writeFileHandler (env : WriteEnv) (file_path content : String) : Json :=
  match env.mkdir with
  | .error m => .obj [("success", .bool false), ("error", .str m), ("path", .str file_path)]
  | .ok _ =>
    match env.write with
    | .error m => .obj [("success", .bool false), ("error", .str m), ("path", .str file_path)]
    | .ok _ =>
      match env.statFile with
      | .error m => .obj [("success", .bool false), ("error", .str m), ("path", .str file_path)]
      | .ok (sz, _) =>
        .obj [("success", .bool true), ("path", .str (env.resolve file_path)),
              ("bytes_written", .num sz)]

/-- `getCwdHandler`: synchronous, no failure path. -/
def getCwdHandler (cwd : String) : Json :=
  .obj [("success", .bool true), ("cwd", .str cwd)]

/-- One `readdir` entry together with the outcome of the `fs.stat` call the
handler issues for it. -/
structure DirEntry where
  name : String
  isDir : Bool
  stat : Except String (Int × String)

/-- Environment of one `list_directory` invocation. -/
structure FsListEnv where
  resolve : String → String
  readdir : Except String (List DirEntry)

/-- The `{name, type, size, modified}` record of one directory entry. -/
def entryRecord (e : DirEntry) (sz : Int) (mt : String) : Json :=
  .obj [("name", .str e.name), ("type", .str (if e.isDir then "directory" else "file")),
        ("size", .num sz), ("modified", .str mt)]

/-- `Promise.all` over the per-entry `fs.stat` calls: all records, or the
first rejection. -/
def statAll : List DirEntry → Except String (List Json)
  | [] => .ok []
  | e :: rest =>
    match e.stat with
    | .error m => .error m
    | .ok (sz, mt) =>
      match statAll rest with
      | .error m => .error m
      | .ok l => .ok (entryRecord e sz mt :: l)

/-- `directory_path || "."`: the default applies to a missing or empty
(falsy) argument. -/
def dirPathOf : Option String → String
  | some s => if s = "" then "." else s
  | none => "."

/-- `listDirectoryHandler` from the filesystem plugin. -/
def listDirectoryHandler (env : FsListEnv) (directory_path : Option String) : Json :=
  let dp := dirPathOf directory_path
  match env.readdir with
  | .error m => .obj [("success", .bool false), ("error", .str m), ("path", .str dp)]
  | .ok entries =>
    match statAll entries with
    | .error m => .obj [("success", .bool false), ("error", .str m), ("path", .str dp)]
    | .ok details =>
      .obj [("success", .bool true), ("path", .str (env.resolve dp)),
            ("entries", .arr details)]

/-- `e.stat` succeeded. -/
def statOk (e : DirEntry) : Bool :=
  match e.stat with
  | .ok _ => true
  | .error _ => false

theorem statAll_ok_of_forall : ∀ (entries : List DirEntry), (∀ e ∈ entries, statOk e) →
    ∃ details, statAll entries = .ok details ∧ details.length = entries.length ∧
      ∀ e ∈ entries, ∃ sz mt, e.stat = .ok (sz, mt) ∧ entryRecord e sz mt ∈ details
  | [], _ => ⟨[], rfl, rfl, by simp⟩
  | e :: rest, h => by
    obtain ⟨details, hd, hlen, hmem⟩ :=
      statAll_ok_of_forall rest (fun x hx => h x (List.mem_cons_of_mem e hx))
    have he := h e (List.mem_cons_self e rest)
    unfold statOk at he
    match hstat : e.stat with
    | .error m => rw [hstat] at he; exact absurd he (by simp)
    | .ok (sz, mt) =>
      refine ⟨entryRecord e sz mt :: details, ?_, by simp [hlen], ?_⟩
      · unfold statAll
        rw [hstat, hd]
      · intro x hx
        rcases List.mem_cons.mp hx with hx | hx
        · exact ⟨sz, mt, by rw [hx, hstat], by simp [hx]⟩
        · obtain ⟨sz', mt', hs', hm'⟩ := hmem x hx
          exact ⟨sz', mt', hs', List.mem_cons_of_mem _ hm'⟩

theorem statAll_error_of_exists : ∀ (entries : List DirEntry),
    (∃ e ∈ entries, ¬ statOk e) → ∃ m, statAll entries = .error m
  | [], h => absurd h (by simp)
  | e :: rest, h => by
    match hstat : e.stat with
    | .error m => exact ⟨m, by unfold statAll; rw [hstat]⟩
    | .ok (sz, mt) =>
      obtain ⟨x, hx, hnx⟩ := h
      rcases List.mem_cons.mp hx with hx' | hx'
      · rw [hx'] at hnx
        unfold statOk at hnx
        rw [hstat] at hnx
        exact absurd rfl hnx
      · obtain ⟨m, hm⟩ := statAll_error_of_exists rest ⟨x, hx', hnx⟩
        refine ⟨m, ?_⟩
        unfold statAll
        rw [hstat, hm]

/-- C10: `list_directory` is all-or-nothing.  If any entry's `stat` fails,
the handler returns `{success:false, error, path}` with no `entries` field;
if every `stat` succeeds it returns `{success:true, path, entries}` with one
`{name, type, size, modified}` record per directory entry. -/
theorem list_directory_all_or_nothing (env : FsListEnv) (directory_path : Option String)
    (entries : List DirEntry) (hrd : env.readdir = .ok entries) :
    ((∃ e ∈ entries, ¬ statOk e) →
      ∃ m, listDirectoryHandler env directory_path =
        .obj [("success", .bool false), ("error", .str m),
              ("path", .str (dirPathOf directory_path))]) ∧
    ((∀ e ∈ entries, statOk e) →
      ∃ details, listDirectoryHandler env directory_path =
          .obj [("success", .bool true), ("path", .str (env.resolve (dirPathOf directory_path))),
                ("entries", .arr details)] ∧
        details.length = entries.length ∧
        ∀ e ∈ entries, ∃ sz mt, e.stat = .ok (sz, mt) ∧ entryRecord e sz mt ∈ details) := by
  constructor
  · intro hex
    obtain ⟨m, hm⟩ := statAll_error_of_exists entries hex
    exact ⟨m, by simp [listDirectoryHandler, hrd, hm]⟩
  · intro hall
    obtain ⟨details, hd, hlen, hmem⟩ := statAll_ok_of_forall entries hall
    exact ⟨details, by simp [listDirectoryHandler, hrd, hd], hlen, hmem⟩

/-- A directory with one well-behaved entry and one whose `stat` rejects. -/
def brokenDirEnv : FsListEnv :=
  { resolve := fun s => "/root/" ++ s,
    readdir := .ok [{ name := "a.txt", isDir := false, stat := .ok (5, "2025-01-01") },
                    { name := "broken", isDir := false, stat := .error "ENOENT" }] }

/-- Witness for C10: one failing `stat` makes the whole listing fail. -/
theorem list_directory_all_or_nothing_witness :
    ((∃ e ∈ [{ name := "a.txt", isDir := false, stat := .ok (5, "2025-01-01") },
              { name := "broken", isDir := false, stat := .error "ENOENT" : DirEntry }],
        ¬ statOk e) →
      ∃ m, listDirectoryHandler brokenDirEnv (some "sub") =
        .obj [("success", .bool false), ("error", .str m),
              ("path", .str (dirPathOf (some "sub")))]) ∧
    ((∀ e ∈ [{ name := "a.txt", isDir := false, stat := .ok (5, "2025-01-01") },
              { name := "broken", isDir := false, stat := .error "ENOENT" : DirEntry }],
        statOk e) →
      ∃ details, listDirectoryHandler brokenDirEnv (some "sub") =
          .obj [("success", .bool true),
                ("path", .str (brokenDirEnv.resolve (dirPathOf (some "sub")))),
                ("entries", .arr details)] ∧
        details.length = 2 ∧
        ∀ e ∈ [{ name := "a.txt", isDir := false, stat := .ok (5, "2025-01-01") },
                { name := "broken", isDir := false, stat := .error "ENOENT" : DirEntry }],
          ∃ sz mt, e.stat = .ok (sz, mt) ∧ entryRecord e sz mt ∈ details) :=
  list_directory_all_or_nothing brokenDirEnv (some "sub")
    [{ name := "a.txt", isDir := false, stat := .ok (5, "2025-01-01") },
     { name := "broken", isDir := false, stat := .error "ENOENT" }] rfl

/-!
## Web search (web plugin, `web_search`)

The instant-answer request goes through the `web_request` embedding; the
`JSON.parse` of its body and the `curl`-scrape fallback (`execAsync` plus the
anchor-tag regex over its stdout) are oracles.  JS truthiness of string
fields (`searchData.Abstract`, `topic.Text`, `topic.FirstURL`, headers) means
present and non-empty.
-/

/-- One element of `searchData.RelatedTopics`. -/
structure Topic where
  text : Option String
  firstURL : Option String

/-- The parsed DuckDuckGo instant-answer payload fields the handler reads. -/
structure SearchData where
  abstract : Option String
  heading : Option String
  abstractURL : Option String
  relatedTopics : Option (List Topic)

/-- Environment of one `web_search` invocation. -/
structure SearchEnv where
  web : WebEnv
  encodeQ : String → String
  parse : String → Except String SearchData
  scrape : Except String (List (String × String))

/-- `topic.Text.split(' - ')[0]`. -/
def jsHeadSplit (s : String) : String := (s.splitOn " - ").headD ""

/-- The instant-answer result entry (its `url` key is omitted when
`AbstractURL` is absent, as `JSON.stringify` drops `undefined` values). -/
def instantAnswerResult (sd : SearchData) (abs : String) : Json :=
  .obj ([("title", .str (match sd.heading with
           | some h => if h = "" then "Instant Answer" else h
           | none => "Instant Answer")),
         ("snippet", .str abs)] ++
        (match sd.abstractURL with | some u => [("url", .str u)] | none => []) ++
        [("type", .str "instant_answer")])

/-- A related-topic result entry, produced only when both `Text` and
`FirstURL` are truthy. -/
def topicResult (t : Topic) : Option Json :=
  match t.text, t.firstURL with
  | some tx, some u =>
    if tx = "" ∨ u = "" then none
    else some (.obj [("title", .str (if jsHeadSplit tx = "" then "Related Topic" else jsHeadSplit tx)),
                     ("snippet", .str tx), ("url", .str u), ("type", .str "related_topic")])
  | _, _ => none

/-- A scrape-fallback result entry from one `(href, anchor text)` match. -/
def scrapeResult (m : String × String) : Json :=
  .obj [("title", .str m.2.trim), ("snippet", .str "Search result"),
        ("url", .str m.1), ("type", .str "web_result")]

/-- `webSearchHandler` from the web plugin.  Note the handler reads
`num_results` (default 10) but enforces no upper bound, although its own
descriptor documents "default: 10, max: 20". -/
def webSearchHandler (env : SearchEnv) (query : String) (numResults : Option Int) : Json :=
  let nr : Int := numResults.getD 10
  let searchUrl := "https://api.duckduckgo.com/?q=" ++ env.encodeQ query ++
    "&format=json&no_html=1&skip_disambig=1"
  match webRequestResult env.web { url := searchUrl } with
  | .fail _ =>
    .obj [("success", .bool false), ("error", .str "Failed to perform web search"),
          ("query", .str query)]
  | .ok _ _ _ body _ _ =>
    match env.parse body with
    | .error m => .obj [("success", .bool false), ("error", .str m), ("query", .str query)]
    | .ok sd =>
      let r1 : List Json := match sd.abstract with
        | some a => if a = "" then [] else [instantAnswerResult sd a]
        | none => []
      let r2 : List Json := r1 ++ (match sd.relatedTopics with
        | some ts => (jsSliceEnd ts (nr - r1.length)).filterMap topicResult
        | none => [])
      let r3 : List Json :=
        if r2.length < 3 then
          r2 ++ (match env.scrape with
                 | .ok ms => ms.map scrapeResult
                 | .error _ => [])
        else r2
      .obj [("success", .bool true), ("query", .str query),
            ("results", .arr (jsSliceEnd r3 nr)), ("total_results", .num r3.length)]

/-- The length of a result's `results` array. -/
def resultsCount (j : Json) : Nat :=
  match j.getField "results" with
  | some (.arr l) => l.length
  | _ => 0

/-- A search environment whose instant-answer payload has an abstract and 30
well-formed related topics. -/
def searchEnvC6 : SearchEnv :=
  { web := { event := .response 200 "OK" [] "payload", gunzip := fun _ => .error "not gzip",
             inflate := fun _ => .error "not deflate", resolveURL := fun l _ => l },
    encodeQ := fun q => q,
    parse := fun _ => .ok
      { abstract := some "CVE summary", heading := some "CVE-2024-0001",
        abstractURL := some "https://example.com/a",
        relatedTopics := some (List.replicate 30
          { text := some "Topic", firstURL := some "https://example.com/t" }) },
    scrape := .error "curl failed" }

/-- C6: the descriptor documents `num_results` as "default: 10, max: 20",
but the handler never enforces the cap: with `num_results:25` and a payload
offering 31 candidate results, 25 results are returned. -/
theorem web_search_exceeds_twenty :
    resultsCount (webSearchHandler searchEnvC6 "query" (some 25)) = 25 ∧ 20 < 25 := by
  constructor
  · rfl
  · decide

/-!
## JS / endpoint analysis (web-analysis plugin)

`analyze_javascript` fetches the page and each `<script src>` target through
its own `makeWebRequest` helper, which always resolves (never rejects),
encoding failures as `{success:false}`.  The per-URL fetch outcomes, the
script-src / inline-script extraction regexes and the pattern-matching
regexes are oracles; the `Set`-based aggregation and the scan loops are
translated directly.  Note the loop's `catch` branch (which would push
`{file, error}`) is unreachable for fetch failures, because `makeWebRequest`
resolves them instead of throwing.
-/

/-- A distilled `makeWebRequest` outcome: the body on `success:true`, the
error message on `success:false`. -/
inductive FetchTry where
  | ok (body : String)
  | err (msg : String)

/-- Environment of one `analyze_javascript` invocation. -/
structure AnalyzeEnv where
  mainFetch : FetchTry
  scriptSrcs : String → List String
  inlineContents : String → List String
  fetchJs : String → FetchTry
  patMatches : String → List String

/-- Arguments of `analyze_javascript`. -/
structure AnalyzeArgs where
  url : String
  search_patterns : Option (List String) := none

/-- `RegExp.prototype.toString()` of the eight default patterns, as reported
in `patterns_used`. -/
def defaultPatternStrings : List String :=
  ["/\\/api\\/[^\\s\"']+/g",
   "/https?:\\/\\/[^\\s\"']*api[^\\s\"']*/g",
   "/fetch\\s*\\(\\s*['\"](.*?)['\"][^)]*\\)/g",
   "/axios\\.(get|post|put|delete)\\s*\\(\\s*['\"](.*?)['\"][^)]*\\)/g",
   "/\\$\\.ajax\\s*\\(\\s*\x7b[^\x7d]*url\\s*:\\s*['\"](.*?)['\"][^\x7d]*\x7d/g",
   "/XMLHttpRequest[^;]*\\.open\\s*\\(\\s*[^,]*,\\s*['\"](.*?)['\"][^)]*\\)/g",
   "/graphql|gql/gi",
   "/websocket|ws:/gi"]

/-- `Set.prototype.add`: JS sets keep insertion order and exact-string
uniqueness. -/
def setAdd (s : List String) (x : String) : List String :=
  if x ∈ s then s else s ++ [x]

/-- The endpoint set accumulated from the inline `<script>` bodies. -/
def inlineScan (env : AnalyzeEnv) (html : String) : List String :=
  (env.inlineContents html).foldl (fun acc c => (env.patMatches c).foldl setAdd acc) []

/-- The `js_files` entry for one successfully fetched script. -/
def jsFileEntry (file : String) (content : String) (fileSet : List String) : Json :=
  .obj [("file", .str file), ("size", .num content.length),
        ("endpoints_found", .arr (fileSet.map Json.str)),
        ("contains_api_calls", .bool (!fileSet.isEmpty))]

/-- The loop over the first 10 external script files: each fetched file's
matches are added to both the aggregate set and its own per-file set; a
failed fetch (`success:false`) adds nothing and records nothing. -/
def scanFiles (env : AnalyzeEnv) : List String → List String → List String × List Json
  | [], found => (found, [])
  | f :: rest, found =>
    match env.fetchJs f with
    | .err _ => scanFiles env rest found
    | .ok content =>
      let ms := env.patMatches content
      let res := scanFiles env rest (ms.foldl setAdd found)
      (res.1, jsFileEntry f content (ms.foldl setAdd []) :: res.2)

/-- `analyzeJavaScriptHandler` from the web-analysis plugin. -/
def analyzeJavaScriptHandler (env : AnalyzeEnv) (args : AnalyzeArgs) : Json :=
  match env.mainFetch with
  | .err _ =>
    .obj [("success", .bool false), ("error", .str "Failed to fetch main page"),
          ("url", .str args.url)]
  | .ok html =>
    let jsFiles := env.scriptSrcs html
    let scanned := scanFiles env (jsFiles.take 10) (inlineScan env html)
    .obj [("success", .bool true), ("url", .str args.url),
          ("total_endpoints_found", .num scanned.1.length),
          ("endpoints", .arr (scanned.1.map Json.str)),
          ("js_files_analyzed", .num scanned.2.length),
          ("js_files", .arr scanned.2),
          ("patterns_used", .arr ((args.search_patterns.getD defaultPatternStrings).map Json.str))]

theorem mem_setAdd (s : List String) (a x : String) :
    x ∈ setAdd s a ↔ x ∈ s ∨ x = a := by
  unfold setAdd
  by_cases h : a ∈ s
  · simp only [if_pos h]
    constructor
    · exact Or.inl
    · rintro (hx | rfl) <;> [exact hx; exact h]
  · simp [if_neg h]

theorem nodup_setAdd (s : List String) (a : String) (h : s.Nodup) : (setAdd s a).Nodup := by
  unfold setAdd
  by_cases ha : a ∈ s
  · simpa [if_pos ha]
  · simp [if_neg ha, List.nodup_append, h, ha]

theorem mem_foldl_setAdd (l : List String) : ∀ (init : List String) (x : String),
    x ∈ l.foldl setAdd init ↔ x ∈ init ∨ x ∈ l := by
  induction l with
  | nil => simp
  | cons a t ih =>
    intro init x
    rw [List.foldl_cons, ih, mem_setAdd]
    simp only [List.mem_cons]
    tauto

theorem nodup_foldl_setAdd (l : List String) : ∀ init : List String,
    init.Nodup → (l.foldl setAdd init).Nodup := by
  induction l with
  | nil => exact fun _ h => h
  | cons a t ih => exact fun init h => ih (setAdd init a) (nodup_setAdd init a h)

theorem mem_inlineScan (env : AnalyzeEnv) (html : String) (x : String) :
    x ∈ inlineScan env html ↔ ∃ c ∈ env.inlineContents html, x ∈ env.patMatches c := by
  unfold inlineScan
  generalize env.inlineContents html = cs
  have main : ∀ (cs : List String) (init : List String),
      x ∈ cs.foldl (fun acc c => (env.patMatches c).foldl setAdd acc) init ↔
        x ∈ init ∨ ∃ c ∈ cs, x ∈ env.patMatches c := by
    intro cs
    induction cs with
    | nil => simp
    | cons c t ih =>
      intro init
      rw [List.foldl_cons, ih, mem_foldl_setAdd]
      simp only [List.mem_cons]
      constructor
      · rintro ((h | h) | ⟨c', hc', hm⟩)
        · exact Or.inl h
        · exact Or.inr ⟨c, Or.inl rfl, h⟩
        · exact Or.inr ⟨c', Or.inr hc', hm⟩
      · rintro (h | ⟨c', hc' | hc', hm⟩)
        · exact Or.inl (Or.inl h)
        · exact Or.inl (Or.inr (hc' ▸ hm))
        · exact Or.inr ⟨c', hc', hm⟩
  rw [main cs []]
  simp

theorem nodup_inlineScan (env : AnalyzeEnv) (html : String) : (inlineScan env html).Nodup := by
  unfold inlineScan
  generalize env.inlineContents html = cs
  have main : ∀ (cs : List String) (init : List String), init.Nodup →
      (cs.foldl (fun acc c => (env.patMatches c).foldl setAdd acc) init).Nodup := by
    intro cs
    induction cs with
    | nil => exact fun _ h => h
    | cons c t ih => exact fun init h => ih _ (nodup_foldl_setAdd _ init h)
  exact main cs [] List.nodup_nil

theorem mem_scanFiles_fst (env : AnalyzeEnv) (files : List String) :
    ∀ (found : List String) (x : String),
      x ∈ (scanFiles env files found).1 ↔
        x ∈ found ∨ ∃ f ∈ files, ∃ c, env.fetchJs f = .ok c ∧ x ∈ env.patMatches c := by
  induction files with
  | nil => intro found x; simp [scanFiles]
  | cons f rest ih =>
    intro found x
    cases hf : env.fetchJs f with
    | err m =>
      rw [show (scanFiles env (f :: rest) found).1 = (scanFiles env rest found).1 by
        simp [scanFiles, hf]]
      rw [ih]
      simp only [List.mem_cons]
      constructor
      · rintro (h | ⟨f', hf', c, hc, hm⟩)
        · exact Or.inl h
        · exact Or.inr ⟨f', Or.inr hf', c, hc, hm⟩
      · rintro (h | ⟨f', hf' | hf', c, hc, hm⟩)
        · exact Or.inl h
        · rw [hf'] at hc
          rw [hf] at hc
          cases hc
        · exact Or.inr ⟨f', hf', c, hc, hm⟩
    | ok content =>
      rw [show (scanFiles env (f :: rest) found).1
            = (scanFiles env rest ((env.patMatches content).foldl setAdd found)).1 by
        simp [scanFiles, hf]]
      rw [ih, mem_foldl_setAdd]
      simp only [List.mem_cons]
      constructor
      · rintro ((h | h) | ⟨f', hf', c, hc, hm⟩)
        · exact Or.inl h
        · exact Or.inr ⟨f, Or.inl rfl, content, hf, h⟩
        · exact Or.inr ⟨f', Or.inr hf', c, hc, hm⟩
      · rintro (h | ⟨f', hf' | hf', c, hc, hm⟩)
        · exact Or.inl (Or.inl h)
        · rw [hf'] at hc
          rw [hf] at hc
          injection hc with hcc
          exact Or.inl (Or.inr (hcc ▸ hm))
        · exact Or.inr ⟨f', hf', c, hc, hm⟩

theorem nodup_scanFiles_fst (env : AnalyzeEnv) (files : List String) :
    ∀ found : List String, found.Nodup → (scanFiles env files found).1.Nodup := by
  induction files with
  | nil => intro found h; simpa [scanFiles]
  | cons f rest ih =>
    intro found h
    cases hf : env.fetchJs f with
    | err m => simpa [scanFiles, hf] using ih found h
    | ok content => simpa [scanFiles, hf] using ih _ (nodup_foldl_setAdd _ found h)

/-!
`probe_api_endpoints` issues one `makeWebRequest` per probed path and pushes
one result entry per path; `makeWebRequest` never rejects, so the loop's
`catch` push is unreachable and every path yields exactly one entry.
-/

/-- A distilled `makeWebRequest` outcome for probing: status, `content-type`
header and body on success, else the error message. -/
inductive ProbeFetch where
  | ok (statusCode : Int) (contentType : Option String) (body : String)
  | err (msg : String)

/-- Environment of one `probe_api_endpoints` invocation: the outcome of
`new URL(base_url)` (its origin, or the exception message) and the per-URL
probe outcomes. -/
structure ProbeEnv where
  parseBase : Except String String
  probe : String → ProbeFetch

/-- Arguments of `probe_api_endpoints`. -/
structure ProbeArgs where
  base_url : String
  paths : Option (List String) := none

/-- The default probed paths. -/
def commonPaths : List String :=
  ["/api", "/api/v1", "/api/v2", "/v1", "/v2", "/graphql", "/gql", "/rest",
   "/api/rest", "/api/graphql", "/api/users", "/api/auth", "/api/login",
   "/api/data", "/api/search", "/api/public", "/endpoints", "/swagger",
   "/docs", "/openapi.json", "/api-docs", "/.well-known/openapi_description"]

/-- The URLs a default probe tests. -/
def probeUrls (baseDomain : String) : List String :=
  commonPaths.map (fun p => baseDomain ++ p)

/-- The `likely_api` property: `undefined` (omitted) when the body matches
nothing and no `content-type` header exists, else a boolean. -/
def likelyApiField (ct : Option String) (body : String) : List (String × Json) :=
  if strContains body "\x7b\"" then [("likely_api", .bool true)]
  else if strContains body "[\x7b" then [("likely_api", .bool true)]
  else match ct with
    | some c => [("likely_api", .bool (strContains c "json" || strContains c "xml"))]
    | none => []

/-- The result entry for one probed URL. -/
def probeEntry (env : ProbeEnv) (testUrl : String) : Json :=
  match env.probe testUrl with
  | .ok sc ct body =>
    .obj ([("url", .str testUrl),
           ("status_code", if sc = 0 then .str "error" else .num sc),
           ("accessible", .bool (decide (sc < 400))),
           ("content_type", .str (match ct with
             | some c => if c = "" then "unknown" else c
             | none => "unknown")),
           ("response_size", .num body.length)] ++ likelyApiField ct body)
  | .err _ =>
    .obj [("url", .str testUrl), ("status_code", .str "error"), ("accessible", .bool false),
          ("content_type", .str "unknown"), ("response_size", .num 0)]

/-- Boolean field access (absent or non-boolean reads as falsy). -/
def boolField (j : Json) (k : String) : Bool :=
  match j.getField k with
  | some (.bool b) => b
  | _ => false

/-- String field access. -/
def strField (j : Json) (k : String) : Option String :=
  match j.getField k with
  | some (.str s) => some s
  | _ => none

/-- `probeApiEndpointsHandler` from the web-analysis plugin. -/
def probeApiEndpointsHandler (env : ProbeEnv) (args : ProbeArgs) : Json :=
  match env.parseBase with
  | .error m =>
    .obj [("success", .bool false), ("error", .str m), ("base_url", .str args.base_url)]
  | .ok baseDomain =>
    let ps := args.paths.getD commonPaths
    let results := ps.map (fun p => probeEntry env (baseDomain ++ p))
    let accessible := results.filter (fun r => boolField r "accessible")
    let likelyApi := results.filter (fun r => boolField r "likely_api")
    .obj [("success", .bool true), ("base_url", .str args.base_url),
          ("total_paths_tested", .num results.length),
          ("accessible_endpoints", .num accessible.length),
          ("likely_api_endpoints", .num likelyApi.length),
          ("results", .arr results),
          ("summary", .obj
            [("accessible", .arr (accessible.map (fun r => Json.str ((strField r "url").getD "")))),
             ("likely_apis", .arr (likelyApi.map (fun r => Json.str ((strField r "url").getD ""))))])]

theorem string_append_left_cancel (base a b : String) (h : base ++ a = base ++ b) : a = b := by
  have hd : base.data ++ a.data = base.data ++ b.data := by
    rw [← String.data_append, ← String.data_append, h]
  exact String.ext (List.append_cancel_left hd)

theorem commonPaths_nodup : commonPaths.Nodup := by decide

theorem probeUrls_nodup (baseDomain : String) : (probeUrls baseDomain).Nodup :=
  commonPaths_nodup.map (fun a b h => string_append_left_cancel baseDomain a b h)

/-- C8: the `analyze_javascript` endpoint aggregation is a JS `Set`: the
returned `endpoints` list is duplicate-free, and a string belongs to it
exactly when some scanned source (an inline script, or one of the at most 10
successfully fetched external scripts) matched it — so a string matched in
two different sources appears exactly once.  `probe_api_endpoints` probes
the pairwise-distinct default URLs once each, producing one entry per
URL. -/
theorem endpoint_dedup (env : AnalyzeEnv) (args : AnalyzeArgs) (html : String)
    (hmf : env.mainFetch = .ok html) (pf : String → ProbeFetch) (burl base : String) :
    ((analyzeJavaScriptHandler env args).getField "endpoints"
        = some (.arr ((scanFiles env ((env.scriptSrcs html).take 10)
            (inlineScan env html)).1.map Json.str)) ∧
      (scanFiles env ((env.scriptSrcs html).take 10) (inlineScan env html)).1.Nodup ∧
      ∀ x : String,
        x ∈ (scanFiles env ((env.scriptSrcs html).take 10) (inlineScan env html)).1 ↔
          ((∃ c ∈ env.inlineContents html, x ∈ env.patMatches c) ∨
           ∃ f ∈ (env.scriptSrcs html).take 10, ∃ c,
             env.fetchJs f = .ok c ∧ x ∈ env.patMatches c)) ∧
    ((probeApiEndpointsHandler { parseBase := .ok base, probe := pf }
          { base_url := burl }).getField "results"
        = some (.arr ((probeUrls base).map
            (probeEntry { parseBase := .ok base, probe := pf }))) ∧
      (probeUrls base).Nodup) := by
  refine ⟨⟨?_, ?_, ?_⟩, ?_, probeUrls_nodup base⟩
  · simp [analyzeJavaScriptHandler, hmf, Json.getField, lookupField]
  · exact nodup_scanFiles_fst env _ _ (nodup_inlineScan env html)
  · intro x
    rw [mem_scanFiles_fst, mem_inlineScan]
  · simp [probeApiEndpointsHandler, probeUrls, Json.getField, lookupField, List.map_map,
      Function.comp]

/-- A two-source analyze environment where `/api/x` is matched both inline
and in the one fetched script, for the C8 witness. -/
def dedupEnv : AnalyzeEnv :=
  { mainFetch := .ok "page",
    scriptSrcs := fun _ => ["https://t/app.js"],
    inlineContents := fun _ => ["fetch('/api/x')"],
    fetchJs := fun _ => .ok "axios.get('/api/x')",
    patMatches := fun c => if c = "" then [] else ["/api/x"] }

/-- Witness for C8 at a concrete environment with an overlapping match. -/
theorem endpoint_dedup_witness :
    ((analyzeJavaScriptHandler dedupEnv { url := "https://t/" }).getField "endpoints"
        = some (.arr ((scanFiles dedupEnv ((dedupEnv.scriptSrcs "page").take 10)
            (inlineScan dedupEnv "page")).1.map Json.str)) ∧
      (scanFiles dedupEnv ((dedupEnv.scriptSrcs "page").take 10)
          (inlineScan dedupEnv "page")).1.Nodup ∧
      ∀ x : String,
        x ∈ (scanFiles dedupEnv ((dedupEnv.scriptSrcs "page").take 10)
            (inlineScan dedupEnv "page")).1 ↔
          ((∃ c ∈ dedupEnv.inlineContents "page", x ∈ dedupEnv.patMatches c) ∨
           ∃ f ∈ (dedupEnv.scriptSrcs "page").take 10, ∃ c,
             dedupEnv.fetchJs f = .ok c ∧ x ∈ dedupEnv.patMatches c)) ∧
    ((probeApiEndpointsHandler { parseBase := .ok "https://t", probe := fun _ => .err "down" }
          { base_url := "https://t/" }).getField "results"
        = some (.arr ((probeUrls "https://t").map
            (probeEntry { parseBase := .ok "https://t", probe := fun _ => .err "down" }))) ∧
      (probeUrls "https://t").Nodup) :=
  endpoint_dedup dedupEnv { url := "https://t/" } "page" rfl (fun _ => .err "down")
    "https://t/" "https://t"

/-- An analyze environment whose page references two scripts; fetching the
first fails with a network error, the second succeeds. -/
def fetchFailEnv : AnalyzeEnv :=
  { mainFetch := .ok "page",
    scriptSrcs := fun _ => ["https://t/bad.js", "https://t/good.js"],
    inlineContents := fun _ => [],
    fetchJs := fun u => if u = "https://t/good.js" then .ok "fetch('/api/x')" else .err "socket hang up",
    patMatches := fun c => if c = "fetch('/api/x')" then ["/api/x"] else [] }

/-- C7: a per-file fetch failure does not abort the scan (the handler still
returns `success:true` with the remaining file analyzed), but contrary to the
claim it is NOT recorded inline: `js_files` contains only the successful
file's entry and `js_files_analyzed` counts only successes — the loop's
`catch` recorder is unreachable because `makeWebRequest` encodes failures
instead of throwing. -/
theorem analyze_js_fetch_failure_omitted :
    (analyzeJavaScriptHandler fetchFailEnv { url := "https://t/" }).getField "success"
      = some (.bool true) ∧
    (analyzeJavaScriptHandler fetchFailEnv { url := "https://t/" }).getField "js_files_analyzed"
      = some (.num 1) ∧
    (analyzeJavaScriptHandler fetchFailEnv { url := "https://t/" }).getField "js_files"
      = some (.arr [jsFileEntry "https://t/good.js" "fetch('/api/x')" ["/api/x"]]) :=
  ⟨rfl, rfl, rfl⟩

/-!
## The handler boundary contract (all registered tools)

Every tool registered by the four plugins — `execute_command`, `read_file`,
`write_file`, `list_directory`, `get_cwd`, `web_request`, `browse_website`,
`web_search`, `analyze_javascript`, `probe_api_endpoints`, `base64_encode`,
`base64_decode`, `hash_text` — wraps its body so that every
expected/operational failure its environment can produce (bad path, network
error, non-2xx response, decode failure, non-zero exit) is encoded in the
returned value rather than thrown.
-/

/-- C1: for every registered tool handler and every schema-shaped argument
value, under every environment outcome (including all the operational
failures), the handler returns a JSON object whose `success` field is a
boolean — `JSON.stringify` of such an object is the always-valid JSON string
the host receives; no expected failure escapes as an exception. -/
theorem handlers_return_json_success :
    (∀ (cwd : String) (o : ExecOutcome) (a : ExecArgs),
      hasBoolSuccess (executeCommandHandler cwd o a) = true) ∧
    (∀ (env : FileEnv) (fp : String), hasBoolSuccess (readFileHandler env fp) = true) ∧
    (∀ (env : WriteEnv) (fp c : String), hasBoolSuccess (writeFileHandler env fp c) = true) ∧
    (∀ (env : FsListEnv) (dp : Option String),
      hasBoolSuccess (listDirectoryHandler env dp) = true) ∧
    (∀ cwd : String, hasBoolSuccess (getCwdHandler cwd) = true) ∧
    (∀ (env : WebEnv) (args : WebRequestArgs),
      hasBoolSuccess (webRequestHandler env args) = true) ∧
    (∀ (pup : Except String PuppeteerData) (wenv : WebEnv) (ro : RegexOracle) (args : BrowseArgs),
      hasBoolSuccess (browseWebsiteHandler pup wenv ro args) = true) ∧
    (∀ (env : SearchEnv) (q : String) (nr : Option Int),
      hasBoolSuccess (webSearchHandler env q nr) = true) ∧
    (∀ (env : AnalyzeEnv) (a : AnalyzeArgs),
      hasBoolSuccess (analyzeJavaScriptHandler env a) = true) ∧
    (∀ (env : ProbeEnv) (a : ProbeArgs),
      hasBoolSuccess (probeApiEndpointsHandler env a) = true) ∧
    (∀ text : List Nat, hasBoolSuccess (base64EncodeHandler text) = true) ∧
    (∀ cs : List Char, hasBoolSuccess (base64DecodeHandler cs) = true) ∧
    (∀ (env : HashEnv) (t : String) (alg : Option String),
      hasBoolSuccess (hashTextHandler env t alg) = true) := by
  refine ⟨?_, ?_, ?_, ?_, ?_, ?_, ?_, ?_, ?_, ?_, ?_, ?_, ?_⟩
  · intro cwd o a
    cases o <;> rfl
  · rintro ⟨res, rd, st⟩ fp
    rcases rd with m | c
    · rfl
    · rcases st with m | ⟨sz, mt⟩ <;> rfl
  · rintro ⟨res, mk, wr, st⟩ fp c
    rcases mk with m | u
    · rfl
    · rcases wr with m | u'
      · rfl
      · rcases st with m | ⟨sz, mt⟩ <;> rfl
  · rintro ⟨res, rd⟩ dp
    rcases rd with m | entries
    · rfl
    · rcases hsa : statAll entries with m | details <;>
        simp [listDirectoryHandler, hasBoolSuccess, Json.getField, lookupField, hsa]
  · intro cwd
    rfl
  · rintro ⟨ev, g, i, rs⟩ args
    cases ev <;> rfl
  · rintro pup wenv ro args
    rcases pup with m | d
    · rcases wenv with ⟨ev, g, i, rs⟩
      cases ev <;> rfl
    · rfl
  · intro env q nr
    rcases hw : webRequestResult env.web
        { url := "https://api.duckduckgo.com/?q=" ++ env.encodeQ q ++
          "&format=json&no_html=1&skip_disambig=1" }
      with ⟨sc, sm, hs, body, rd, ru⟩ | m
    · rcases hp : env.parse body with m | sd <;>
        simp [webSearchHandler, hasBoolSuccess, Json.getField, lookupField, hw, hp]
    · simp [webSearchHandler, hasBoolSuccess, Json.getField, lookupField, hw]
  · rintro ⟨mf, ss, ic, fj, pm⟩ a
    cases mf <;> rfl
  · rintro ⟨pb, pr⟩ a
    rcases pb with m | bd <;> rfl
  · intro text
    rfl
  · intro cs
    rfl
  · intro env t alg
    rcases hd : env.digest (alg.getD "sha256") t with m | d <;>
      simp [hashTextHandler, hasBoolSuccess, Json.getField, lookupField, hd]

end CortexPlugins
